import Mathlib

/-!
Verification of the SmartCart ranking and recommendation engine.

This file shallowly embeds the pure core of the TypeScript source
(`server/semanticSearch.ts`, `server/irMetrics.ts`, `server/recommendations.ts`,
`server/db.ts`, `server/routers.ts`) into Lean.  JavaScript numbers are
modelled as rationals (`ℚ`), except for the deterministic embedding provider,
whose `Math.sin`/`Math.tanh`/`Math.sqrt` pipeline is modelled over the reals.
Cosine similarity is a floating-point computation in the source (it divides by
a square root); the ranking and recommendation logic never inspects it beyond
comparisons, so those functions are parametrised by an arbitrary rational
valued similarity function `cos`.
-/

namespace SmartCart

/-- JS `text.toLowerCase()` (ASCII case mapping, which covers every string the
source manipulates).  Defined by structural recursion over the character data
so that concrete instances evaluate inside the kernel. -/
def toLowerStr (s : String) : String :=
  String.mk (s.data.map Char.toLower)

/-- JS `haystack.includes(needle)` on arrays of characters: `needle` occurs
contiguously inside the haystack (the empty needle always occurs). -/
def listHasInfix (needle : List Char) : List Char → Bool
  | [] => needle.isEmpty
  | c :: rest => needle.isPrefixOf (c :: rest) || listHasInfix needle rest

/-- JS `hay.includes(needle)` for strings. -/
def textIncludes (hay needle : String) : Bool :=
  listHasInfix needle.data hay.data

/-- JS `text.trim()`: strip leading and trailing whitespace. -/
def trimStr (s : String) : String :=
  String.mk ((((s.data.dropWhile (fun c => c.isWhitespace)).reverse.dropWhile
    (fun c => c.isWhitespace))).reverse)

/-- Split a character list at every whitespace character (JS
`split(/\s+/)` differs only in the empty fragments it produces, and every
consumer of this function filters fragments by length anyway). -/
def splitWhitespace : List Char → List (List Char)
  | [] => [[]]
  | c :: rest =>
    if c.isWhitespace then [] :: splitWhitespace rest
    else
      match splitWhitespace rest with
      | [] => [[c]]
      | t :: ts => (c :: t) :: ts

/-- The tokenisation used all over the source:
`query.toLowerCase().split(/\s+/).filter(t => t.length > 2)`. -/
def queryTokens (query : String) : List String :=
  ((splitWhitespace (toLowerStr query).data).map String.mk).filter
    (fun t => 2 < t.length)

/-! ## irMetrics.ts -/

/-- The product shape `generateAutoRelevanceJudgments` receives. -/
structure JudgmentProduct where
  id : ℕ
  title : String
  description : Option String
  category : Option String
deriving DecidableEq

structure RelevanceJudgment where
  productId : ℕ
  relevanceScore : ℕ
deriving DecidableEq

/-- `irMetrics.ts` `generateAutoRelevanceJudgments`: per product, one pass over
the query terms accumulates `matchCount` and the `exactTitleMatch` flag, then a
piecewise rule maps the match ratio to a 0-3 relevance score. -/
def generateAutoRelevanceJudgments (query : String)
    (products : List JudgmentProduct) : List RelevanceJudgment :=
  let queryTerms := queryTokens query
  products.map (fun product =>
    let productText :=
      toLowerStr (product.title ++ " " ++ product.description.getD "" ++ " "
        ++ product.category.getD "")
    let counted := queryTerms.foldl
      (fun (acc : ℕ × Bool) term =>
        ((if textIncludes productText term then acc.1 + 1 else acc.1),
         (acc.2 || textIncludes (toLowerStr product.title) term)))
      (0, false)
    let matchCount := counted.1
    let exactTitleMatch := counted.2
    let relevanceScore : ℕ :=
      if 0 < queryTerms.length then
        if 4/5 ≤ (matchCount : ℚ) / queryTerms.length ∧ exactTitleMatch then 3
        else if 1/2 ≤ (matchCount : ℚ) / queryTerms.length ∨ exactTitleMatch then 2
        else if 0 < matchCount then 1
        else 0
      else 0
    { productId := product.id, relevanceScore := relevanceScore })

/-- The relevance rule as the specification words it (§4.8): `m` counts query
terms occurring in the product text, `exactTitle` holds when some query term is
a substring of the (lowercased) title, and the score is the stated piecewise
function of `m / ∣queryTerms∣`.  Written independently of the loop in
`generateAutoRelevanceJudgments` so the two can be compared. -/
def autoRelevanceSpec (query : String) (product : JudgmentProduct) : ℕ :=
  let queryTerms := queryTokens query
  let productText :=
    toLowerStr (product.title ++ " " ++ product.description.getD "" ++ " "
      ++ product.category.getD "")
  let m := queryTerms.countP (fun term => textIncludes productText term)
  let exactTitle := queryTerms.any (fun term => textIncludes (toLowerStr product.title) term)
  if queryTerms.length = 0 then 0
  else if 4/5 ≤ (m : ℚ) / queryTerms.length ∧ exactTitle then 3
  else if 1/2 ≤ (m : ℚ) / queryTerms.length ∨ exactTitle then 2
  else if 0 < m then 1
  else 0

/-- `extractMatchedTerms` from semanticSearch.ts: query tokens (length > 2,
lowercased) that occur as substrings of the lowercased product text, in query
order.  Note the source does not deduplicate. -/
def extractMatchedTerms (query productText : String) : List String :=
  let queryTerms := queryTokens query
  let productLower := toLowerStr productText
  queryTerms.filter (fun term => textIncludes productLower term)

/-- The single accumulating pass of `generateAutoRelevanceJudgments` computes
the term-occurrence count and the any-term-in-title flag. -/
lemma foldl_count_any (f g : String → Bool) (l : List String) (a : ℕ) (b : Bool) :
    l.foldl (fun acc t => ((if f t then acc.1 + 1 else acc.1), acc.2 || g t)) (a, b) =
      (a + l.countP f, b || l.any g) := by
  induction l generalizing a b with
  | nil => simp
  | cons x xs ih =>
    by_cases hf : f x <;> by_cases hg : g x <;>
      simp [hf, hg, ih, List.countP_cons] <;> omega

/-- C8: for every query and product set, `generateAutoRelevanceJudgments`
assigns each product exactly the piecewise relevance of §4.8 (3 when the match
ratio is ≥ 0.8 with a title hit; else 2 when the ratio is ≥ 0.5 or there is a
title hit; else 1 when any term matches; else 0, also when the query has no
tokens of length > 2), and running it twice returns equal judgments. -/
theorem C8_auto_relevance_judgments (query : String) (products : List JudgmentProduct) :
    generateAutoRelevanceJudgments query products =
      products.map (fun p => { productId := p.id, relevanceScore := autoRelevanceSpec query p }) ∧
    generateAutoRelevanceJudgments query products =
      generateAutoRelevanceJudgments query products := by
  refine ⟨?_, rfl⟩
  unfold generateAutoRelevanceJudgments autoRelevanceSpec
  refine List.map_congr_left (fun p _ => ?_)
  rcases h : queryTokens query with _ | ⟨t, ts⟩
  · simp [h]
  · simp only [foldl_count_any, Nat.zero_add, Bool.false_or, h]
    simp [Nat.pos_iff_ne_zero]

/-- C7 (counterexample): matched terms are not deduplicated — a query term
repeated in the query appears repeatedly in the matched-terms list. -/
theorem C7_counterexample :
    extractMatchedTerms "red red box" "Red Box" = ["red", "red", "box"] ∧
    ¬ (extractMatchedTerms "red red box" "Red Box").Nodup := by
  exact ⟨by decide, by decide⟩

/-- C7 (amended): the matched-terms list is the subsequence of the query's
lowercased whitespace tokens of length > 2 consisting of those that occur as
substrings of the lowercased product text, kept in query order with
duplicates retained (the source does not deduplicate). -/
theorem C7_matched_terms (query productText : String) :
    (extractMatchedTerms query productText).Sublist (queryTokens query) ∧
    ∀ t : String, t ∈ extractMatchedTerms query productText ↔
      (t ∈ queryTokens query ∧ textIncludes (toLowerStr productText) t = true) := by
  constructor
  · exact List.filter_sublist _
  · intro t
    simp [extractMatchedTerms]

/-! ## semanticSearch.ts — feature normalizers and the explainable ranker

Products carry the fields the ranker reads.  Decimal columns that arrive as
nullable strings (`price`, `rating`) are modelled as `Option ℚ`; timestamps as
rational epoch milliseconds. -/

inductive Availability where
  | in_stock
  | low_stock
  | out_of_stock
deriving DecidableEq

structure Product where
  id : ℕ
  title : String
  description : Option String
  category : Option String
  price : Option ℚ
  rating : Option ℚ
  availability : Option Availability
  stockQuantity : Option ℚ
  createdAt : ℚ
  isFeatured : Bool
deriving DecidableEq

/-- A row of `getAllProductsWithOptionalEmbeddings` / `getProductsWithEmbeddings`:
a product together with its (optional) stored embedding vector.  The vector
type is kept abstract. -/
structure ProductWithEmbedding (V : Type) where
  product : Product
  embedding : Option V

structure RankingWeights where
  alpha : ℚ
  beta : ℚ
  gamma : ℚ
  delta : ℚ
  epsilon : ℚ

/-- `normalizePriceScore`: inverted min-max normalization with a 0.5 fallback
when the bounds coincide. -/
def normalizePriceScore (price minPrice maxPrice : ℚ) : ℚ :=
  if maxPrice = minPrice then 1/2
  else 1 - (price - minPrice) / (maxPrice - minPrice)

/-- `normalizeRatingScore`: 0-5 scale to 0-1, 0.5 when the rating is null. -/
def normalizeRatingScore : Option ℚ → ℚ
  | none => 1/2
  | some r => r / 5

/-- `normalizeStockScore`: 0 / 0.5 / quantity-bonus by availability, 0.5 when
the availability is unknown; a null quantity defaults to 100. -/
def normalizeStockScore : Option Availability → Option ℚ → ℚ
  | some .out_of_stock, _ => 0
  | some .low_stock, _ => 1/2
  | some .in_stock, quantity => min 1 (7/10 + (quantity.getD 100) / 500 * (3/10))
  | none, _ => 1/2

/-- `normalizeRecencyScore`: 1 within 30 days of creation, 0.1 beyond 365,
linear in between. -/
def normalizeRecencyScore (now createdAt : ℚ) : ℚ :=
  let daysSinceCreation := (now - createdAt) / (1000 * 60 * 60 * 24)
  if daysSinceCreation ≤ 30 then 1
  else if 365 ≤ daysSinceCreation then 1/10
  else 1 - (daysSinceCreation - 30) / 335 * (9/10)

/-- The product text fed to matched-term extraction and the fallback
embedding: `title + " " + (description || "") + " " + (category || "")`. -/
def productText (p : Product) : String :=
  p.title ++ " " ++ p.description.getD "" ++ " " ++ p.category.getD ""

/-- The per-result score breakdown. -/
structure SubScores where
  final : ℚ
  semantic : ℚ
  rating : ℚ
  price : ℚ
  stock : ℚ
  recency : ℚ
deriving DecidableEq

structure ScoredResult where
  product : Product
  scores : SubScores
  matchedTerms : List String
  position : ℕ
deriving DecidableEq

/-- One candidate's scoring inside `semanticSearch`: cosine against the stored
embedding (or a deterministic fallback embedding of the product text), the four
feature sub-scores, matched terms, the keyword boost
`0.5 · ∣matched∣ / ∣queryTerms∣`, and the weighted final score
`α·max(0, σ + boost) + β·ρ + γ·π + δ·τ + ε·φ`.  The reported semantic
sub-score is `max(0, σ)` without the boost, exactly as in the source. -/
def scoreCandidate {V : Type} (cos : V → V → ℚ) (fallbackEmb : String → V)
    (queryEmbedding : V) (now : ℚ) (weights : RankingWeights)
    (minPriceInSet maxPriceInSet : ℚ) (query : String)
    (c : ProductWithEmbedding V) : ScoredResult :=
  let semanticScore :=
    cos queryEmbedding (c.embedding.getD (fallbackEmb (productText c.product)))
  let ratingScore := normalizeRatingScore c.product.rating
  let priceScore :=
    normalizePriceScore (c.product.price.getD 0) minPriceInSet maxPriceInSet
  let stockScore := normalizeStockScore c.product.availability c.product.stockQuantity
  let recencyScore := normalizeRecencyScore now c.product.createdAt
  let matchedTerms := extractMatchedTerms query (productText c.product)
  let queryTerms := queryTokens query
  let keywordBoost : ℚ :=
    if 0 < queryTerms.length then
      ((matchedTerms.length : ℚ) / queryTerms.length) * (1/2)
    else 0
  let finalScore :=
    weights.alpha * max 0 (semanticScore + keywordBoost) +
    weights.beta * ratingScore +
    weights.gamma * priceScore +
    weights.delta * stockScore +
    weights.epsilon * recencyScore
  { product := c.product
    scores :=
      { final := finalScore
        semantic := max 0 semanticScore
        rating := ratingScore
        price := priceScore
        stock := stockScore
        recency := recencyScore }
    matchedTerms := matchedTerms
    position := 0 }

/-- `Math.min(...prices, 0)` over the candidates' known positive prices
(`Number(price) || 0`, filtered `> 0`). -/
def minPriceInSet {V : Type} (candidates : List (ProductWithEmbedding V)) : ℚ :=
  (((candidates.map (fun c => c.product.price.getD 0)).filter (fun p => 0 < p))).foldr min 0

/-- `Math.max(...prices, 1)` over the candidates' known positive prices. -/
def maxPriceInSet {V : Type} (candidates : List (ProductWithEmbedding V)) : ℚ :=
  (((candidates.map (fun c => c.product.price.getD 0)).filter (fun p => 0 < p))).foldr max 1

structure SearchOptions where
  limit : ℕ
  minScore : ℚ
  category : Option String
  minPrice : Option ℚ
  maxPrice : Option ℚ
  inStockOnly : Bool

/-- The optional category / price-range / stock filters of `semanticSearch`,
applied in source order. -/
def applySearchFilters (opts : SearchOptions) (l : List ScoredResult) : List ScoredResult :=
  let l₁ := match opts.category with
    | some c => l.filter (fun p =>
        match p.product.category with
        | some pc => toLowerStr pc = toLowerStr c
        | none => false)
    | none => l
  let l₂ := match opts.minPrice with
    | some mp => l₁.filter (fun p => mp ≤ p.product.price.getD 0)
    | none => l₁
  let l₃ := match opts.maxPrice with
    | some mp => l₂.filter (fun p => p.product.price.getD 0 ≤ mp)
    | none => l₂
  if opts.inStockOnly then
    l₃.filter (fun p => p.product.availability ≠ some Availability.out_of_stock)
  else l₃

/-- Stable insertion of `x` into a list sorted descending by `key`: `x` goes in
front of the first element with a strictly smaller key, hence after every
earlier element with an equal key — the behaviour of the stable JS
`sort((a, b) => key(b) - key(a))`. -/
def insertDescBy {α : Type} (key : α → ℚ) (x : α) : List α → List α
  | [] => [x]
  | y :: ys => if key y < key x then x :: y :: ys else y :: insertDescBy key x ys

/-- Stable descending sort by `key` (insertion sort; any stable sort with the
same comparator produces the same list). -/
def sortDescBy {α : Type} (key : α → ℚ) (l : List α) : List α :=
  l.foldl (fun acc x => insertDescBy key x acc) []

/-- Rank assignment: `position := index + 1` down the sorted, truncated list. -/
def assignPositions : ℕ → List ScoredResult → List ScoredResult
  | _, [] => []
  | i, r :: rest => { r with position := i + 1 } :: assignPositions (i + 1) rest

/-- The pure core of `semanticSearch`: score every candidate (price min-max
taken over the whole candidate set before filtering), apply the optional
filters, drop results under `minScore`, sort by final score descending (stable),
truncate to `limit` and assign 1-based positions. -/
def semanticSearch {V : Type} (cos : V → V → ℚ) (fallbackEmb : String → V)
    (queryEmbedding : V) (now : ℚ) (weights : RankingWeights) (query : String)
    (candidates : List (ProductWithEmbedding V)) (opts : SearchOptions) :
    List ScoredResult :=
  let minP := minPriceInSet candidates
  let maxP := maxPriceInSet candidates
  let scoredProducts := candidates.map
    (scoreCandidate cos fallbackEmb queryEmbedding now weights minP maxP query)
  let filtered := applySearchFilters opts scoredProducts
  let kept := filtered.filter (fun p => opts.minScore ≤ p.scores.final)
  assignPositions 0 ((sortDescBy (fun p => p.scores.final) kept).take opts.limit)

/-! ### Elementary facts about the sorting and rank-assignment helpers -/

lemma mem_insertDescBy {α : Type} (key : α → ℚ) (x y : α) :
    ∀ l : List α, y ∈ insertDescBy key x l ↔ y = x ∨ y ∈ l := by
  intro l
  induction l with
  | nil => simp [insertDescBy]
  | cons z zs ih =>
    rw [insertDescBy]
    by_cases hc : key z < key x
    · simp [hc]
    · simp [hc, ih]
      tauto

lemma pairwise_insertDescBy {α : Type} (key : α → ℚ) (x : α) {l : List α}
    (h : l.Pairwise (fun a b => key b ≤ key a)) :
    (insertDescBy key x l).Pairwise (fun a b => key b ≤ key a) := by
  induction l with
  | nil => simp [insertDescBy]
  | cons y ys ih =>
    rw [List.pairwise_cons] at h
    rw [insertDescBy]
    by_cases hc : key y < key x
    · rw [if_pos hc, List.pairwise_cons]
      refine ⟨?_, List.pairwise_cons.mpr h⟩
      intro z hz
      rcases List.mem_cons.mp hz with hz | hz
      · exact hz ▸ le_of_lt hc
      · exact le_trans (h.1 z hz) (le_of_lt hc)
    · rw [if_neg hc, List.pairwise_cons]
      refine ⟨?_, ih h.2⟩
      intro z hz
      rcases (mem_insertDescBy key x z ys).mp hz with hz | hz
      · exact hz ▸ not_lt.mp hc
      · exact h.1 z hz

lemma mem_sortDescBy_foldl {α : Type} (key : α → ℚ) (y : α) :
    ∀ (l acc : List α),
      (y ∈ l.foldl (fun a x => insertDescBy key x a) acc ↔ y ∈ acc ∨ y ∈ l) := by
  intro l
  induction l with
  | nil => simp
  | cons z zs ih =>
    intro acc
    rw [List.foldl_cons, ih, mem_insertDescBy]
    simp
    tauto

lemma mem_sortDescBy {α : Type} (key : α → ℚ) (y : α) (l : List α) :
    y ∈ sortDescBy key l ↔ y ∈ l := by
  rw [sortDescBy, mem_sortDescBy_foldl]
  simp

lemma pairwise_sortDescBy_foldl {α : Type} (key : α → ℚ) :
    ∀ (l acc : List α), acc.Pairwise (fun a b => key b ≤ key a) →
      (l.foldl (fun a x => insertDescBy key x a) acc).Pairwise
        (fun a b => key b ≤ key a) := by
  intro l
  induction l with
  | nil => exact fun acc h => h
  | cons z zs ih =>
    intro acc h
    exact ih _ (pairwise_insertDescBy key z h)

lemma pairwise_sortDescBy {α : Type} (key : α → ℚ) (l : List α) :
    (sortDescBy key l).Pairwise (fun a b => key b ≤ key a) :=
  pairwise_sortDescBy_foldl key l [] (List.Pairwise.nil)

lemma assignPositions_map_scores :
    ∀ (i : ℕ) (l : List ScoredResult),
      (assignPositions i l).map (fun r => r.scores) = l.map (fun r => r.scores) := by
  intro i l
  induction l generalizing i with
  | nil => rfl
  | cons r rest ih => simp [assignPositions, ih]

lemma mem_assignPositions {r : ScoredResult} :
    ∀ {i : ℕ} {l : List ScoredResult}, r ∈ assignPositions i l →
      ∃ r₀ ∈ l, r.product = r₀.product ∧ r.scores = r₀.scores ∧
        r.matchedTerms = r₀.matchedTerms := by
  intro i l
  induction l generalizing i with
  | nil => simp [assignPositions]
  | cons r₀ rest ih =>
    intro h
    rcases List.mem_cons.mp h with h | h
    · exact ⟨r₀, List.mem_cons_self .., by simp [h]⟩
    · obtain ⟨r₁, hm, he⟩ := ih h
      exact ⟨r₁, List.mem_cons_of_mem _ hm, he⟩

lemma applySearchFilters_subset {opts : SearchOptions} {l : List ScoredResult}
    {r : ScoredResult} (h : r ∈ applySearchFilters opts l) : r ∈ l := by
  rw [applySearchFilters] at h
  rcases opts with ⟨lim, ms, cat, mp, xp, stk⟩
  dsimp at h
  cases cat <;> cases mp <;> cases xp <;> cases stk <;>
    simp only [List.mem_filter, if_true, if_false, Bool.false_eq_true,
      reduceIte] at h <;>
    tauto

/-- Every result of `semanticSearch` is the scoring of some candidate (with
only its `position` field rewritten). -/
lemma semanticSearch_mem_characterisation {V : Type} (cos : V → V → ℚ)
    (fallbackEmb : String → V) (queryEmbedding : V) (now : ℚ)
    (weights : RankingWeights) (query : String)
    (candidates : List (ProductWithEmbedding V)) (opts : SearchOptions)
    {r : ScoredResult}
    (h : r ∈ semanticSearch cos fallbackEmb queryEmbedding now weights query
      candidates opts) :
    ∃ c ∈ candidates,
      r.product = c.product ∧
      r.scores = (scoreCandidate cos fallbackEmb queryEmbedding now weights
        (minPriceInSet candidates) (maxPriceInSet candidates) query c).scores := by
  rw [semanticSearch] at h
  obtain ⟨r₀, hr₀, hprod, hscores, -⟩ := mem_assignPositions h
  have h₁ : r₀ ∈ sortDescBy (fun p => p.scores.final) _ := List.take_subset _ _ hr₀
  rw [mem_sortDescBy] at h₁
  have h₂ := applySearchFilters_subset (List.mem_of_mem_filter h₁)
  obtain ⟨c, hc, heq⟩ := List.mem_map.mp h₂
  refine ⟨c, hc, ?_, ?_⟩
  · rw [hprod, ← heq]
    rfl
  · rw [hscores, ← heq]

/-! ### The price bounds actually used by the ranker -/

lemma foldr_min_zero (l : List ℚ) (h : ∀ x ∈ l, 0 < x) : l.foldr min 0 = 0 := by
  induction l with
  | nil => rfl
  | cons x xs ih =>
    rw [List.foldr_cons, ih (fun y hy => h y (List.mem_cons_of_mem _ hy))]
    exact min_eq_right (le_of_lt (h x (List.mem_cons_self ..)))

/-- The source folds `Math.min` starting from `0` over prices that were all
filtered to be positive, so the lower bound of its min-max normalization is
always `0` — not the candidate set's minimum price. -/
lemma minPriceInSet_eq_zero {V : Type} (candidates : List (ProductWithEmbedding V)) :
    minPriceInSet candidates = 0 := by
  apply foldr_min_zero
  intro x hx
  exact of_decide_eq_true (List.mem_filter.mp hx).2

lemma foldr_max_ge_one (l : List ℚ) : 1 ≤ l.foldr max 1 := by
  induction l with
  | nil => exact le_refl 1
  | cons x xs ih => exact le_trans ih (le_max_right x _)

/-- Dually, the upper bound is folded from `1`, so it is at least `1`. -/
lemma one_le_maxPriceInSet {V : Type} (candidates : List (ProductWithEmbedding V)) :
    1 ≤ maxPriceInSet candidates :=
  foldr_max_ge_one _

lemma scoreCandidate_price {V : Type} (cos : V → V → ℚ) (fallbackEmb : String → V)
    (queryEmbedding : V) (now : ℚ) (weights : RankingWeights)
    (minP maxP : ℚ) (query : String) (c : ProductWithEmbedding V) :
    (scoreCandidate cos fallbackEmb queryEmbedding now weights minP maxP query
      c).scores.price = normalizePriceScore (c.product.price.getD 0) minP maxP := rfl

/-! ### C3 — ordering of the ranker output -/

lemma pairwise_final_assignPositions_take (n lim : ℕ) (l : List ScoredResult) :
    ((assignPositions n ((sortDescBy (fun p => p.scores.final) l).take lim)).map
      (fun r => r.scores.final)).Pairwise (fun a b => b ≤ a) := by
  have h1 := pairwise_sortDescBy (fun p : ScoredResult => p.scores.final) l
  have h2 := List.Pairwise.sublist (List.take_sublist lim _) h1
  have h3 : ((assignPositions n ((sortDescBy (fun p => p.scores.final) l).take lim)).map
      (fun r => r.scores)).map (fun s => s.final) =
      (((sortDescBy (fun p => p.scores.final) l).take lim).map
        (fun r => r.scores)).map (fun s => s.final) := by
    rw [assignPositions_map_scores]
  simp only [List.map_map] at h3
  have h4 : (fun s : SubScores => s.final) ∘ (fun r : ScoredResult => r.scores) =
      fun r : ScoredResult => r.scores.final := rfl
  rw [h4] at h3
  rw [h3, List.pairwise_map]
  exact h2

/-- C3 (amended): for every query, weights and candidate set, the final scores
of the ranker's results are monotonically non-increasing by rank.  (Equal
scores keep the stable sort's insertion order; they are not re-ordered by
product id — see the counterexample.) -/
theorem C3_scores_non_increasing {V : Type} (cos : V → V → ℚ)
    (fallbackEmb : String → V) (queryEmbedding : V) (now : ℚ)
    (weights : RankingWeights) (query : String)
    (candidates : List (ProductWithEmbedding V)) (opts : SearchOptions) :
    ((semanticSearch cos fallbackEmb queryEmbedding now weights query candidates
      opts).map (fun r => r.scores.final)).Pairwise (fun a b => b ≤ a) :=
  pairwise_final_assignPositions_take 0 opts.limit _

def defaultWeights : RankingWeights :=
  { alpha := 1/2, beta := 1/5, gamma := 3/20, delta := 1/10, epsilon := 1/20 }

/-- Search options with no optional filter, limit 20, minimum score 0.1 —
the defaults of `semanticSearch`. -/
def plainOpts : SearchOptions :=
  { limit := 20, minScore := 1/10, category := none, minPrice := none,
    maxPrice := none, inStockOnly := false }

def c3Product (n : ℕ) : Product :=
  { id := n, title := "Widget", description := none, category := none,
    price := some 10, rating := none, availability := some Availability.in_stock,
    stockQuantity := some 0, createdAt := 0, isFeatured := false }

def c3Candidates : List (ProductWithEmbedding ℕ) :=
  [⟨c3Product 2, some 0⟩, ⟨c3Product 1, some 0⟩]

lemma c3_eval :
    semanticSearch (fun _ _ => (0 : ℚ)) (fun _ => (0 : ℕ)) 0 0 defaultWeights ""
      c3Candidates plainOpts =
    [⟨c3Product 2, ⟨11/50, 0, 1/2, 0, 7/10, 1⟩, [], 1⟩,
     ⟨c3Product 1, ⟨11/50, 0, 1/2, 0, 7/10, 1⟩, [], 2⟩] := by
  norm_num +decide [semanticSearch, scoreCandidate, minPriceInSet, maxPriceInSet,
    applySearchFilters, sortDescBy, insertDescBy, assignPositions,
    normalizePriceScore, normalizeRatingScore, normalizeStockScore,
    normalizeRecencyScore, extractMatchedTerms, queryTokens, toLowerStr,
    splitWhitespace, textIncludes, listHasInfix, productText, c3Candidates,
    c3Product, plainOpts, defaultWeights, min_def, max_def]

/-- C3 (counterexample): two candidates with identical final scores, listed
with the larger product id first, are returned in candidate order — the tie is
not broken by product id ascending. -/
theorem C3_counterexample :
    ¬ (semanticSearch (fun _ _ => (0 : ℚ)) (fun _ => (0 : ℕ)) 0 0 defaultWeights ""
        c3Candidates plainOpts).Pairwise
      (fun a b => a.scores.final = b.scores.final → a.product.id ≤ b.product.id) := by
  rw [c3_eval]
  intro hp
  have h := (List.pairwise_cons.mp hp).1 _ (List.mem_singleton_self _) rfl
  simp [c3Product] at h

/-! ### C2 — the price sub-score -/

/-- C2 (amended): the price sub-score of every returned result is
`1 − p / M` where `p` is the product's price (`0` when unknown) and
`M = max(1, known positive candidate prices)`; the lower min-max bound is the
constant `0`, not the candidate minimum, so the `min = max ⇒ 0.5` branch of
`normalizePriceScore` is unreachable from the search path, a one-element
candidate set does not yield 0.5, and an unknown price yields sub-score `1`. -/
theorem C2_price_subscore {V : Type} (cos : V → V → ℚ)
    (fallbackEmb : String → V) (queryEmbedding : V) (now : ℚ)
    (weights : RankingWeights) (query : String)
    (candidates : List (ProductWithEmbedding V)) (opts : SearchOptions)
    {r : ScoredResult}
    (h : r ∈ semanticSearch cos fallbackEmb queryEmbedding now weights query
      candidates opts) :
    r.scores.price = 1 - (r.product.price.getD 0) / maxPriceInSet candidates ∧
    minPriceInSet candidates = 0 ∧ 1 ≤ maxPriceInSet candidates ∧
    (r.product.price = none → r.scores.price = 1) := by
  obtain ⟨c, hc, hprod, hscores⟩ := semanticSearch_mem_characterisation cos
    fallbackEmb queryEmbedding now weights query candidates opts h
  have hmin := minPriceInSet_eq_zero candidates
  have hmax := one_le_maxPriceInSet candidates
  have hne : maxPriceInSet candidates ≠ minPriceInSet candidates := by
    rw [hmin]
    intro h0
    rw [h0] at hmax
    norm_num at hmax
  have hprice : r.scores.price = 1 - (r.product.price.getD 0) / maxPriceInSet candidates := by
    rw [hscores, scoreCandidate_price, normalizePriceScore, if_neg hne, hmin, hprod]
    ring
  refine ⟨hprice, hmin, hmax, fun hnone => ?_⟩
  rw [hprice, hnone]
  simp

def c2Product (n : ℕ) (price : ℚ) : Product :=
  { id := n, title := "Widget", description := none, category := none,
    price := some price, rating := none,
    availability := some Availability.in_stock, stockQuantity := some 0,
    createdAt := 0, isFeatured := false }

def c2Candidates : List (ProductWithEmbedding ℕ) :=
  [⟨c2Product 1 10, some 0⟩, ⟨c2Product 2 20, some 0⟩]

def c2ResultHead : ScoredResult :=
  ⟨c2Product 1 10, ⟨59/200, 0, 1/2, 1/2, 7/10, 1⟩, [], 1⟩

lemma c2_eval :
    semanticSearch (fun _ _ => (0 : ℚ)) (fun _ => (0 : ℕ)) 0 0 defaultWeights ""
      c2Candidates plainOpts =
    [c2ResultHead, ⟨c2Product 2 20, ⟨11/50, 0, 1/2, 0, 7/10, 1⟩, [], 2⟩] := by
  norm_num +decide [semanticSearch, scoreCandidate, minPriceInSet, maxPriceInSet,
    applySearchFilters, sortDescBy, insertDescBy, assignPositions,
    normalizePriceScore, normalizeRatingScore, normalizeStockScore,
    normalizeRecencyScore, extractMatchedTerms, queryTokens, toLowerStr,
    splitWhitespace, textIncludes, listHasInfix, productText, c2Candidates,
    c2Product, c2ResultHead, plainOpts, defaultWeights, min_def, max_def]

/-- C2 (counterexample): for a candidate set with prices 10 and 20, the
specified formula over the candidate set's own min and max gives the cheaper
product the price sub-score 1, but the ranker assigns 0.5 (its min-max runs
from the sentinel 0, and its max from 1 for one-element or unknown cases). -/
theorem C2_counterexample :
    ((semanticSearch (fun _ _ => (0 : ℚ)) (fun _ => (0 : ℕ)) 0 0 defaultWeights ""
        c2Candidates plainOpts).map (fun r => (r.product.id, r.scores.price))) =
      [(1, 1/2), (2, 0)] ∧
    normalizePriceScore 10 10 20 = 1 ∧ ((1 : ℚ)/2) ≠ 1 := by
  refine ⟨?_, by norm_num [normalizePriceScore], by norm_num⟩
  rw [c2_eval]
  norm_num [c2ResultHead, c2Product]

/-- C2 (witness): the amended statement evaluated on the concrete two-product
candidate set — the returned head has price sub-score `1 − 10/20 = 0.5`. -/
theorem C2_price_subscore_witness :
    c2ResultHead ∈ semanticSearch (fun _ _ => (0 : ℚ)) (fun _ => (0 : ℕ)) 0 0
      defaultWeights "" c2Candidates plainOpts ∧
    c2ResultHead.scores.price =
      1 - (c2ResultHead.product.price.getD 0) / maxPriceInSet c2Candidates := by
  have hmem : c2ResultHead ∈ semanticSearch (fun _ _ => (0 : ℚ)) (fun _ => (0 : ℕ))
      0 0 defaultWeights "" c2Candidates plainOpts := by
    rw [c2_eval]
    exact List.mem_cons_self ..
  exact ⟨hmem, (C2_price_subscore (fun _ _ => (0 : ℚ)) (fun _ => (0 : ℕ)) 0 0
    defaultWeights "" c2Candidates plainOpts hmem).1⟩

/-! ### C1 — scenario S1: semantic win over rating -/

def productA : Product :=
  { id := 1, title := "Sony WH-1000XM5 Wireless Bluetooth Headphones",
    description := none, category := none, price := some (32999/100),
    rating := some (24/5), availability := some Availability.in_stock,
    stockQuantity := some 500, createdAt := 0, isFeatured := false }

def productB : Product :=
  { id := 2, title := "Luxury Leather Office Chair", description := none,
    category := none, price := some (32999/100), rating := some 5,
    availability := some Availability.in_stock, stockQuantity := some 500,
    createdAt := 0, isFeatured := false }

def s1Candidates : List (ProductWithEmbedding ℕ) :=
  [⟨productA, some 10⟩, ⟨productB, some 20⟩]

/-- The stipulated stored-embedding cosines of S1: 0.88 against product A's
vector, 0.05 against product B's. -/
def s1Cos : ℕ → ℕ → ℚ := fun _ v =>
  if v = 10 then 22/25 else if v = 20 then 1/20 else 0

/-- Thirty days in epoch milliseconds: the scenario's products are exactly 30
days old at query time. -/
def s1Now : ℚ := 30 * 86400000

lemma s1_eval :
    semanticSearch s1Cos (fun _ => (0 : ℕ)) 0 s1Now defaultWeights
      "wireless bluetooth headphones" s1Candidates plainOpts =
    [⟨productA, ⟨129/125, 22/25, 24/25, 0, 1, 1⟩,
      ["wireless", "bluetooth", "headphones"], 1⟩,
     ⟨productB, ⟨3/8, 1/20, 1, 0, 1, 1⟩, [], 2⟩] := by
  norm_num +decide [semanticSearch, scoreCandidate, minPriceInSet, maxPriceInSet,
    applySearchFilters, sortDescBy, insertDescBy, assignPositions,
    normalizePriceScore, normalizeRatingScore, normalizeStockScore,
    normalizeRecencyScore, extractMatchedTerms, queryTokens, toLowerStr,
    splitWhitespace, textIncludes, listHasInfix, productText, s1Candidates,
    productA, productB, s1Cos, s1Now, plainOpts, defaultWeights, min_def, max_def]

/-- C1 (counterexample): on scenario S1 the ranker does place A first, but A's
final score is 1.032 (= 129/125), not the claimed 0.917, and B's is 0.375, not
0.450: the source does not cap the boosted semantic score at 1, and its price
min-max runs from the sentinels 0 and 1, so two equally-priced products score
0 on price rather than 0.5. -/
theorem C1_counterexample :
    ((semanticSearch s1Cos (fun _ => (0 : ℕ)) 0 s1Now defaultWeights
        "wireless bluetooth headphones" s1Candidates plainOpts).map
      (fun r => (r.product.id, r.scores.final))) = [(1, 129/125), (2, 3/8)] ∧
    ((129 : ℚ)/125 ≠ 917/1000) ∧ ((3 : ℚ)/8 ≠ 450/1000) := by
  refine ⟨?_, by norm_num, by norm_num⟩
  rw [s1_eval]
  norm_num [productA, productB]

/-- C1 (amended): with weights (0.5, 0.2, 0.15, 0.1, 0.05), query "wireless
bluetooth headphones", and S1's two products (cosines 0.88 / 0.05, ratings
4.8 / 5.0, equal price, in stock with quantity 500, 30 days old), the ranker
places A above B with A's final score exactly
0.5·(0.88 + 0.5) + 0.2·0.96 + 0.15·0 + 0.1·1 + 0.05·1 = 1.032 (uncapped boost,
price sub-score 0) and B's exactly 0.375, and A's matched-terms list exactly
["wireless", "bluetooth", "headphones"]. -/
theorem C1_scenario :
    semanticSearch s1Cos (fun _ => (0 : ℕ)) 0 s1Now defaultWeights
      "wireless bluetooth headphones" s1Candidates plainOpts =
    [⟨productA, ⟨129/125, 22/25, 24/25, 0, 1, 1⟩,
      ["wireless", "bluetooth", "headphones"], 1⟩,
     ⟨productB, ⟨3/8, 1/20, 1, 0, 1, 1⟩, [], 2⟩] ∧
    (129 : ℚ)/125 =
      (1/2) * (22/25 + 1/2) + (1/5) * (24/25) + (3/20) * 0 + (1/10) * 1 + (1/20) * 1 ∧
    (3 : ℚ)/8 = (1/2) * (1/20) + (1/5) * 1 + (3/20) * 0 + (1/10) * 1 + (1/20) * 1 :=
  ⟨s1_eval, by norm_num, by norm_num⟩

/-! ## db.ts `searchProductsByKeyword` and the routers.ts keyword fallback -/

/-- The `WHERE` clause of `searchProductsByKeyword`: title, description or
category `ILIKE %trim(keyword)%` — a case-insensitive substring match (nulls
coalesced to the empty string). -/
def keywordMatches (keyword : String) (p : Product) : Bool :=
  let searchTerm := toLowerStr (trimStr keyword)
  textIncludes (toLowerStr p.title) searchTerm ||
  textIncludes (toLowerStr (p.description.getD "")) searchTerm ||
  textIncludes (toLowerStr (p.category.getD "")) searchTerm

/-- `searchProductsByKeyword(keyword, limit)` over the products table. -/
def searchProductsByKeyword (keyword : String) (lim : ℕ)
    (products : List Product) : List Product :=
  (products.filter (keywordMatches keyword)).take lim

/-- The category / price / stock re-filter routers.ts applies to the keyword
fallback products. -/
def routerKeywordFilter (opts : SearchOptions) (products : List Product) :
    List Product :=
  products.filter (fun product =>
    (match opts.category with
     | some c =>
       match product.category with
       | some pc => toLowerStr pc = toLowerStr c
       | none => false
     | none => true) &&
    (match opts.minPrice with
     | some mp => decide (mp ≤ product.price.getD 0)
     | none => true) &&
    (match opts.maxPrice with
     | some mp => decide (product.price.getD 0 ≤ mp)
     | none => true) &&
    (!opts.inStockOnly || product.availability ≠ some Availability.out_of_stock))

/-- One keyword-fallback result as routers.ts builds it: flat 0.5 final score,
semantic 0, `rating/5` (0.5 when null), price 0.5, stock 0 only for
`out_of_stock` (1 otherwise, including `low_stock`), recency 0.5, no matched
terms. -/
def keywordFallbackResult (i : ℕ) (product : Product) : ScoredResult :=
  { product := product
    scores :=
      { final := 1/2
        semantic := 0
        rating := match product.rating with | some r => r / 5 | none => 1/2
        price := 1/2
        stock := if product.availability = some Availability.out_of_stock then 0 else 1
        recency := 1/2 }
    matchedTerms := []
    position := i + 1 }

def keywordFallbackResults : ℕ → List Product → List ScoredResult
  | _, [] => []
  | i, p :: rest => keywordFallbackResult i p :: keywordFallbackResults (i + 1) rest

structure SearchRouteResponse where
  results : List ScoredResult
  fallbackUsed : Option String
  searchLogWritten : Bool
deriving DecidableEq

/-- The local branch of the `search.semantic` route: run `semanticSearch`
(which always writes a SearchLog row before returning), and if it produced no
results fall back to the keyword search, re-filtered and rescored flat, with
the response flag `fallbackUsed: "keyword"`. -/
def searchSemanticLocal {V : Type} (cos : V → V → ℚ) (fallbackEmb : String → V)
    (queryEmbedding : V) (now : ℚ) (weights : RankingWeights) (query : String)
    (candidates : List (ProductWithEmbedding V)) (productsTable : List Product)
    (opts : SearchOptions) : SearchRouteResponse :=
  let result := semanticSearch cos fallbackEmb queryEmbedding now weights query
    candidates opts
  if result.isEmpty then
    let keywordProducts := searchProductsByKeyword query opts.limit productsTable
    let filteredKeywordProducts := routerKeywordFilter opts keywordProducts
    { results := keywordFallbackResults 0 filteredKeywordProducts
      fallbackUsed := some "keyword"
      searchLogWritten := true }
  else
    { results := result, fallbackUsed := none, searchLogWritten := true }

lemma keywordFallbackResults_map_product :
    ∀ (i : ℕ) (l : List Product),
      (keywordFallbackResults i l).map (fun r => r.product) = l := by
  intro i l
  induction l generalizing i with
  | nil => rfl
  | cons p rest ih => simp [keywordFallbackResults, keywordFallbackResult, ih]

lemma mem_keywordFallbackResults {r : ScoredResult} :
    ∀ {i : ℕ} {l : List Product}, r ∈ keywordFallbackResults i l →
      ∃ p ∈ l, ∃ j, r = keywordFallbackResult j p := by
  intro i l
  induction l generalizing i with
  | nil => simp [keywordFallbackResults]
  | cons p rest ih =>
    intro h
    rcases List.mem_cons.mp h with h | h
    · exact ⟨p, List.mem_cons_self .., i, h⟩
    · obtain ⟨q, hq, j, hj⟩ := ih h
      exact ⟨q, List.mem_cons_of_mem _ hq, j, hj⟩

/-- C4 (amended): whenever the semantic ranker returns 0 results (and the
query has a non-trivial token), the route answers with the keyword fallback:
the first `limit` products whose title, description or category contain the
trimmed query case-insensitively, re-filtered by the optional category /
price / stock filters, each scored flat 0.5 with sub-scores rating = rating/5
(0.5 when null), price = 0.5, stock = 0 for `out_of_stock` and 1 otherwise
(including `low_stock`), recency = 0.5, empty matched terms; the response
carries `fallbackUsed = "keyword"` and a SearchLog row is still written. -/
theorem C4_keyword_fallback {V : Type} (cos : V → V → ℚ)
    (fallbackEmb : String → V) (queryEmbedding : V) (now : ℚ)
    (weights : RankingWeights) (query : String)
    (candidates : List (ProductWithEmbedding V)) (productsTable : List Product)
    (opts : SearchOptions)
    (hempty : semanticSearch cos fallbackEmb queryEmbedding now weights query
      candidates opts = [])
    (_htoken : queryTokens query ≠ []) :
    (searchSemanticLocal cos fallbackEmb queryEmbedding now weights query
        candidates productsTable opts).fallbackUsed = some "keyword" ∧
    (searchSemanticLocal cos fallbackEmb queryEmbedding now weights query
        candidates productsTable opts).searchLogWritten = true ∧
    (searchSemanticLocal cos fallbackEmb queryEmbedding now weights query
        candidates productsTable opts).results.map (fun r => r.product) =
      routerKeywordFilter opts (searchProductsByKeyword query opts.limit productsTable) ∧
    ∀ r ∈ (searchSemanticLocal cos fallbackEmb queryEmbedding now weights query
        candidates productsTable opts).results,
      keywordMatches query r.product = true ∧
      r.scores =
        { final := 1/2, semantic := 0,
          rating := match r.product.rating with | some rt => rt / 5 | none => 1/2,
          price := 1/2,
          stock := if r.product.availability = some Availability.out_of_stock then 0 else 1,
          recency := 1/2 } ∧
      r.matchedTerms = [] := by
  have hroute : searchSemanticLocal cos fallbackEmb queryEmbedding now weights
      query candidates productsTable opts =
      { results := keywordFallbackResults 0 (routerKeywordFilter opts
          (searchProductsByKeyword query opts.limit productsTable))
        fallbackUsed := some "keyword"
        searchLogWritten := true } := by
    rw [searchSemanticLocal, hempty]
    rfl
  rw [hroute]
  refine ⟨rfl, rfl, keywordFallbackResults_map_product 0 _, ?_⟩
  intro r hr
  obtain ⟨p, hp, j, hj⟩ := mem_keywordFallbackResults hr
  have hp₁ : p ∈ searchProductsByKeyword query opts.limit productsTable := by
    rw [routerKeywordFilter] at hp
    exact List.mem_of_mem_filter hp
  have hp₂ : keywordMatches query p = true :=
    (List.mem_filter.mp (List.take_subset _ _ hp₁)).2
  subst hj
  exact ⟨hp₂, rfl, rfl⟩

def unicornProduct : Product :=
  { id := 5, title := "Unicorn Plush Toy", description := none, category := none,
    price := some 15, rating := none, availability := some Availability.low_stock,
    stockQuantity := some 3, createdAt := 0, isFeatured := false }

/-- C4 (counterexample): with an empty candidate set and the query
"unicorn plush" against a catalog holding a `low_stock` "Unicorn Plush Toy",
the fallback fires, but the stock sub-score of the low-stock product is 1, not
the claimed 0.5 (the route's fallback scoring only distinguishes
`out_of_stock`). -/
theorem C4_counterexample :
    (searchSemanticLocal (fun _ _ => (0 : ℚ)) (fun _ => (0 : ℕ)) 0 0
        defaultWeights "unicorn plush" [] [unicornProduct] plainOpts).fallbackUsed =
      some "keyword" ∧
    (searchSemanticLocal (fun _ _ => (0 : ℚ)) (fun _ => (0 : ℕ)) 0 0
        defaultWeights "unicorn plush" [] [unicornProduct] plainOpts).results.map
      (fun r => (r.product.id, r.scores.stock)) = [(5, 1)] ∧
    unicornProduct.availability = some Availability.low_stock ∧
    ((1 : ℚ) ≠ 1/2) := by
  refine ⟨by decide, ?_, by decide, by norm_num⟩
  norm_num +decide [searchSemanticLocal, semanticSearch, applySearchFilters,
    sortDescBy, assignPositions, searchProductsByKeyword, routerKeywordFilter,
    keywordMatches, keywordFallbackResults, keywordFallbackResult, trimStr,
    toLowerStr, textIncludes, listHasInfix, unicornProduct, plainOpts]

/-- C4 (witness): the amended fallback statement instantiated on the
"unicorn plush" scenario. -/
theorem C4_keyword_fallback_witness :
    semanticSearch (fun _ _ => (0 : ℚ)) (fun _ => (0 : ℕ)) 0 0 defaultWeights
      "unicorn plush" ([] : List (ProductWithEmbedding ℕ)) plainOpts = [] ∧
    queryTokens "unicorn plush" ≠ [] ∧
    (searchSemanticLocal (fun _ _ => (0 : ℚ)) (fun _ => (0 : ℕ)) 0 0
        defaultWeights "unicorn plush" [] [unicornProduct] plainOpts).fallbackUsed =
      some "keyword" :=
  ⟨by decide, by decide,
    (C4_keyword_fallback (fun _ _ => (0 : ℚ)) (fun _ => (0 : ℕ)) 0 0
      defaultWeights "unicorn plush" [] [unicornProduct] plainOpts
      (by decide) (by decide)).1⟩

/-! ## recommendations.ts -/

inductive InteractionType where
  | view
  | click
  | search_click
  | add_to_cart
  | purchase
deriving DecidableEq

structure SessionInteraction where
  productId : ℕ
  interactionType : InteractionType
deriving DecidableEq

/-- The hard-coded interaction weights (`interactionWeights` in the source;
the `|| 1` default cannot fire because the kind set is closed). -/
def interactionWeight : InteractionType → ℚ
  | .purchase => 5
  | .add_to_cart => 4
  | .search_click => 3
  | .click => 2
  | .view => 1

structure RecommendationResult where
  product : Product
  score : ℚ
  reason : String
  sourceProductId : Option ℕ
deriving DecidableEq

/-- One `productScores.set` step: a JS `Map` keeps the first-insertion key
order and replaces the stored value in place when the new score is larger. -/
def updateProductScore (pid : ℕ) (score : ℚ) (ty : InteractionType) :
    List (ℕ × ℚ × InteractionType) → List (ℕ × ℚ × InteractionType)
  | [] => [(pid, score, ty)]
  | e :: rest =>
    if e.1 = pid then
      (if e.2.1 < score then (pid, score, ty) :: rest else e :: rest)
    else e :: updateProductScore pid score ty rest

/-- The `interactions.forEach((interaction, index) => ...)` body: weight by
interaction kind times the recency boost `1 + (n − i)/n` (`i` the 0-based
index in the most-recent-first list, `n` its length), keeping each product's
maximum score with the kind that achieved it. -/
def computeProductScoresAux (n : ℚ) :
    ℕ → List SessionInteraction → List (ℕ × ℚ × InteractionType) →
      List (ℕ × ℚ × InteractionType)
  | _, [], acc => acc
  | i, interaction :: rest, acc =>
    computeProductScoresAux n (i + 1) rest
      (updateProductScore interaction.productId
        (interactionWeight interaction.interactionType * (1 + (n - (i : ℚ)) / n))
        interaction.interactionType acc)

def computeProductScores (interactions : List SessionInteraction) :
    List (ℕ × ℚ × InteractionType) :=
  computeProductScoresAux (interactions.length : ℚ) 0 interactions []

/-- Embeddings of the interacted products, in `Map` key order, each with its
interaction score; products without a stored embedding are skipped. -/
def interactedEmbeddings {V : Type} (embLookup : ℕ → Option V)
    (scores : List (ℕ × ℚ × InteractionType)) : List (ℕ × V × ℚ) :=
  scores.filterMap (fun e => (embLookup e.1).map (fun emb => (e.1, emb, e.2.1)))

/-- `getColdStartRecommendations`: featured products (already ordered by
rating descending by the repository), over-fetched by the exclude-list length,
filtered by the explicit exclude list only, truncated, scored 1 with reason
"Popular product". -/
def getColdStartRecommendations (featuredProducts : List Product) (lim : ℕ)
    (excludeProductIds : List ℕ) : List RecommendationResult :=
  let featured := featuredProducts.take (lim + excludeProductIds.length)
  ((featured.filter (fun p => !excludeProductIds.contains p.id)).take lim).map
    (fun product =>
      { product := product, score := 1, reason := "Popular product",
        sourceProductId := none })

/-- `generateRecommendationReason`: purchase / add-to-cart override, otherwise
banded by the best raw cosine. -/
def generateRecommendationReason (similarity : ℚ)
    (interactionType : Option InteractionType) : String :=
  if interactionType = some InteractionType.purchase then "Based on your purchase"
  else if interactionType = some InteractionType.add_to_cart then
    "Similar to items in your cart"
  else if 4/5 < similarity then "Very similar to items you viewed"
  else if 3/5 < similarity then "Similar to your interests"
  else if 2/5 < similarity then "Related to your browsing"
  else "You might like this"

/-- The pure core of `getSessionRecommendations`.  `sessionInteractions` is
the session's history most-recent-first (the source fetches at most 20 rows,
hence the `take 20`); `embLookup` is `getEmbeddingByProductId`; `allProducts`
is `getProductsWithEmbeddings`; `featuredProducts` backs the cold-start path. -/
def getSessionRecommendations {V : Type} (cos : V → V → ℚ)
    (embLookup : ℕ → Option V) (allProducts : List (ProductWithEmbedding V))
    (featuredProducts : List Product) (sessionInteractions : List SessionInteraction)
    (lim : ℕ) (excludeProductIds : List ℕ) : List RecommendationResult :=
  let interactions := sessionInteractions.take 20
  if interactions.isEmpty then
    getColdStartRecommendations featuredProducts lim excludeProductIds
  else
    let productScores := computeProductScores interactions
    let interactedProductIds := productScores.map (fun e => e.1)
    let iEmb := interactedEmbeddings embLookup productScores
    if iEmb.isEmpty then
      getColdStartRecommendations featuredProducts lim excludeProductIds
    else
      let excludeSet := excludeProductIds ++ interactedProductIds
      let recommendations := allProducts.filterMap (fun c =>
        match c.embedding with
        | none => none
        | some embedding =>
          if excludeSet.contains c.product.id then none
          else
            let totalScore := iEmb.foldl
              (fun t e => t + cos embedding e.2.1 * e.2.2) 0
            let bestMatch := iEmb.foldl
              (fun (best : ℕ × ℚ) e =>
                if best.2 < cos embedding e.2.1 then (e.1, cos embedding e.2.1)
                else best)
              (0, 0)
            let avgScore := totalScore / iEmb.length
            if 1/10 < avgScore then
              some
                { product := c.product
                  score := avgScore
                  reason := generateRecommendationReason bestMatch.2
                    ((productScores.find? (fun e => e.1 = bestMatch.1)).map
                      (fun e => e.2.2))
                  sourceProductId := some bestMatch.1 }
            else none)
      (sortDescBy (fun r => r.score) recommendations).take lim

/-! ### C5 — exclusion invariants of `forSession` -/

lemma keys_updateProductScore (pid : ℕ) (score : ℚ) (ty : InteractionType) :
    ∀ (l : List (ℕ × ℚ × InteractionType)) (q : ℕ),
      q ∈ (updateProductScore pid score ty l).map (fun e => e.1) ↔
        q = pid ∨ q ∈ l.map (fun e => e.1) := by
  intro l
  induction l with
  | nil => simp [updateProductScore]
  | cons e rest ih =>
    intro q
    rw [updateProductScore]
    by_cases he : e.1 = pid
    · by_cases hs : e.2.1 < score <;> simp [he, hs]
    · simp [he, ih]
      tauto

lemma keys_computeProductScoresAux (n : ℚ) :
    ∀ (l : List SessionInteraction) (i : ℕ)
      (acc : List (ℕ × ℚ × InteractionType)) (q : ℕ),
      q ∈ (computeProductScoresAux n i l acc).map (fun e => e.1) ↔
        q ∈ acc.map (fun e => e.1) ∨ q ∈ l.map (fun s => s.productId) := by
  intro l
  induction l with
  | nil => simp [computeProductScoresAux]
  | cons s rest ih =>
    intro i acc q
    rw [computeProductScoresAux, ih, keys_updateProductScore]
    simp only [List.map_cons, List.mem_cons]
    tauto

/-- The key set of the interaction-score map is exactly the set of interacted
product ids. -/
lemma keys_computeProductScores (interactions : List SessionInteraction) (q : ℕ) :
    q ∈ (computeProductScores interactions).map (fun e => e.1) ↔
      q ∈ interactions.map (fun s => s.productId) := by
  rw [computeProductScores, keys_computeProductScoresAux]
  simp

lemma mem_getColdStartRecommendations {r : RecommendationResult}
    {featuredProducts : List Product} {lim : ℕ} {excludeProductIds : List ℕ}
    (h : r ∈ getColdStartRecommendations featuredProducts lim excludeProductIds) :
    r.product.id ∉ excludeProductIds ∧ r.score = 1 ∧ r.reason = "Popular product" := by
  rw [getColdStartRecommendations] at h
  obtain ⟨p, hp, rfl⟩ := List.mem_map.mp h
  have hp₁ := List.take_subset _ _ hp
  have hp₂ := (List.mem_filter.mp hp₁).2
  simp at hp₂
  exact ⟨hp₂, rfl, rfl⟩

/-- C5 (amended): no product returned by `forSession` appears in the explicit
exclude list; and provided the session's 20 most recent interactions are
nonempty and at least one interacted product has a stored embedding (i.e. the
similarity path runs rather than the cold-start fallback), no returned product
appears among those interactions' product ids either.  The cold-start fallback
filters only the explicit exclude list, and only the 20 most recent
interactions are ever consulted. -/
theorem C5_exclusions {V : Type} (cos : V → V → ℚ) (embLookup : ℕ → Option V)
    (allProducts : List (ProductWithEmbedding V)) (featuredProducts : List Product)
    (sessionInteractions : List SessionInteraction) (lim : ℕ)
    (excludeProductIds : List ℕ) {r : RecommendationResult}
    (h : r ∈ getSessionRecommendations cos embLookup allProducts featuredProducts
      sessionInteractions lim excludeProductIds) :
    r.product.id ∉ excludeProductIds ∧
    (¬ (sessionInteractions.take 20).isEmpty = true →
      ¬ (interactedEmbeddings embLookup
          (computeProductScores (sessionInteractions.take 20))).isEmpty = true →
      r.product.id ∉ (sessionInteractions.take 20).map (fun s => s.productId)) := by
  simp only [getSessionRecommendations] at h
  split at h
  case isTrue h1 =>
    exact ⟨(mem_getColdStartRecommendations h).1, fun hne _ => absurd h1 hne⟩
  case isFalse h1 =>
    split at h
    case isTrue h2 =>
      exact ⟨(mem_getColdStartRecommendations h).1, fun _ hne => absurd h2 hne⟩
    case isFalse h2 =>
      have h3 := List.take_subset _ _ h
      rw [mem_sortDescBy] at h3
      obtain ⟨c, hc, hfc⟩ := List.mem_filterMap.mp h3
      split at hfc
      next => exact absurd hfc (by simp)
      next emb heq =>
        split at hfc
        next hcont => exact absurd hfc (by simp)
        next hcont =>
          split at hfc
          next havg =>
            obtain rfl := Option.some.inj hfc
            have hmem : c.product.id ∉
                excludeProductIds ++ (computeProductScores
                  (sessionInteractions.take 20)).map (fun e => e.1) := by
              intro hm
              exact hcont (by simpa using hm)
            rw [List.mem_append] at hmem
            push_neg at hmem
            refine ⟨hmem.1, fun _ _ hmemi => hmem.2 ?_⟩
            rw [keys_computeProductScores]
            exact hmemi
          next => exact absurd hfc (by simp)

def c5Featured : Product :=
  { id := 7, title := "Featured Gadget", description := none, category := none,
    price := none, rating := none, availability := none, stockQuantity := none,
    createdAt := 0, isFeatured := true }

def c5Interactions : List SessionInteraction :=
  [⟨7, InteractionType.view⟩]

/-- C5 (counterexample): a session whose only interaction touches product 7,
where product 7 has no stored embedding but is featured — the similarity path
falls through to cold start, which filters only the explicit exclude list, so
product 7 is recommended back despite being in the session's interaction
history. -/
theorem C5_counterexample :
    (getSessionRecommendations (fun _ _ => (0 : ℚ)) (fun _ => (none : Option ℕ))
        [] [c5Featured] c5Interactions 8 []).map (fun r => r.product.id) = [7] ∧
    7 ∈ c5Interactions.map (fun s => s.productId) := by
  constructor
  · norm_num +decide [getSessionRecommendations, getColdStartRecommendations,
      computeProductScores, computeProductScoresAux, updateProductScore,
      interactedEmbeddings, interactionWeight, sortDescBy, insertDescBy,
      c5Featured, c5Interactions]
  · decide

/-! ### C6 — scenario S4: session affinity -/

def s4CandidateX : Product :=
  { id := 201, title := "Candidate X", description := none, category := none,
    price := none, rating := none, availability := none, stockQuantity := none,
    createdAt := 0, isFeatured := false }

def s4CandidateY : Product :=
  { id := 202, title := "Candidate Y", description := none, category := none,
    price := none, rating := none, availability := none, stockQuantity := none,
    createdAt := 0, isFeatured := false }

def s4AllProducts : List (ProductWithEmbedding ℕ) :=
  [⟨s4CandidateX, some 11⟩, ⟨s4CandidateY, some 12⟩]

/-- Stored embeddings of the interacted products p1 (id 101) and p2 (id 102). -/
def s4EmbLookup : ℕ → Option ℕ := fun pid =>
  if pid = 101 then some 1 else if pid = 102 then some 2 else none

/-- The stipulated cosines of S4: cos(cX,p1) = 0.9, cos(cX,p2) = 0.6,
cos(cY,p1) = cos(cY,p2) = 0.1 (candidate vector first, as in the source). -/
def s4Cos : ℕ → ℕ → ℚ := fun a b =>
  if a = 11 then (if b = 1 then 9/10 else 3/5) else 1/10

/-- S4's interactions, most-recent-first: a view of p1, then an add-to-cart
of p2. -/
def s4Interactions : List SessionInteraction :=
  [⟨101, InteractionType.view⟩, ⟨102, InteractionType.add_to_cart⟩]

def s4ResultX : RecommendationResult :=
  ⟨s4CandidateX, 27/10, "Very similar to items you viewed", some 101⟩

def s4ResultY : RecommendationResult :=
  ⟨s4CandidateY, 2/5, "You might like this", some 101⟩

lemma s4_eval :
    getSessionRecommendations s4Cos s4EmbLookup s4AllProducts [] s4Interactions
      8 [] = [s4ResultX, s4ResultY] := by
  norm_num +decide [getSessionRecommendations, getColdStartRecommendations,
    computeProductScores, computeProductScoresAux, updateProductScore,
    interactedEmbeddings, interactionWeight, generateRecommendationReason,
    sortDescBy, insertDescBy, s4AllProducts, s4CandidateX, s4CandidateY,
    s4EmbLookup, s4Cos, s4Interactions, s4ResultX, s4ResultY,
    List.filterMap_cons, List.filterMap_nil, List.find?_cons, List.find?_nil]

/-- C6 (counterexample): on scenario S4 the recommender does rank cX first
with affinity 2.7, but its reason is "Very similar to items you viewed", not
the claimed "Similar to items in your cart": the best-match interaction is the
one with the highest raw cosine — the *view* of p1 (0.9) — not the
add-to-cart of p2 (0.6). -/
theorem C6_counterexample :
    (getSessionRecommendations s4Cos s4EmbLookup s4AllProducts [] s4Interactions
        8 []).map (fun r => (r.product.id, r.reason)) =
      [(201, "Very similar to items you viewed"), (202, "You might like this")] ∧
    "Very similar to items you viewed" ≠ "Similar to items in your cart" := by
  refine ⟨?_, by decide⟩
  rw [s4_eval]
  norm_num [s4ResultX, s4ResultY, s4CandidateX, s4CandidateY]

/-- C6 (amended): on scenario S4, `forSession` computes interaction scores 2
for p1 (weight 1 · boost 2) and 6 for p2 (weight 4 · boost 1.5), affinities
a_cX = (2·0.9 + 6·0.6)/2 = 2.7 and a_cY = (2·0.1 + 6·0.1)/2 = 0.4, keeps both
(> 0.1), and ranks cX first; cX's reason is computed from the interaction with
the highest raw cosine — the view of p1 — giving "Very similar to items you
viewed" (cosine 0.9 > 0.8), not the add-to-cart reason. -/
theorem C6_scenario :
    getSessionRecommendations s4Cos s4EmbLookup s4AllProducts [] s4Interactions
      8 [] = [s4ResultX, s4ResultY] ∧
    s4ResultX.score = (2 * (9/10) + 6 * (3/5)) / 2 ∧
    s4ResultY.score = (2 * (1/10) + 6 * (1/10)) / 2 ∧
    (2 : ℚ) = interactionWeight InteractionType.view * (1 + (2 - 0) / 2) ∧
    (6 : ℚ) = interactionWeight InteractionType.add_to_cart * (1 + (2 - 1) / 2) ∧
    s4ResultX.reason = generateRecommendationReason (9/10) (some InteractionType.view) :=
  ⟨s4_eval, by norm_num [s4ResultX], by norm_num [s4ResultY],
    by norm_num [interactionWeight], by norm_num [interactionWeight],
    by norm_num +decide [s4ResultX, generateRecommendationReason]⟩

/-- C5 (witness): the amended exclusion statement evaluated on the S4
scenario: the top recommendation cX is neither in the (empty) exclude list nor
among the interacted product ids. -/
theorem C5_exclusions_witness :
    s4ResultX ∈ getSessionRecommendations s4Cos s4EmbLookup s4AllProducts []
      s4Interactions 8 [] ∧
    s4ResultX.product.id ∉ ([] : List ℕ) ∧
    s4ResultX.product.id ∉ s4Interactions.map (fun s => s.productId) := by
  have hmem : s4ResultX ∈ getSessionRecommendations s4Cos s4EmbLookup
      s4AllProducts [] s4Interactions 8 [] := by
    rw [s4_eval]
    exact List.mem_cons_self ..
  have h := C5_exclusions s4Cos s4EmbLookup s4AllProducts [] s4Interactions 8 []
    hmem
  refine ⟨hmem, h.1, ?_⟩
  have h2 := h.2 (by decide) (by decide)
  simpa [s4Interactions] using h2

/-! ## db.ts `getActiveRankingWeights` -/

structure RankingWeightRow where
  name : String
  alpha : ℚ
  beta : ℚ
  gamma : ℚ
  delta : ℚ
  epsilon : ℚ
  isActive : Bool
deriving DecidableEq

/-- The default row the source inserts when no active row exists. -/
def defaultRankingWeightRow : RankingWeightRow :=
  { name := "default", alpha := 1/2, beta := 1/5, gamma := 3/20,
    delta := 1/10, epsilon := 1/20, isActive := true }

/-- db.ts `getActiveRankingWeights` against a reachable database, modelled on
the table state: select the first active row; if none, insert the default row
(active) and recurse.  The recursion is fuel-indexed to model the source's
self-call; the result carries the returned row, the table afterwards, and how
many rows were inserted. -/
def getActiveRankingWeights :
    ℕ → List RankingWeightRow → Option (RankingWeightRow × List RankingWeightRow × ℕ)
  | 0, _ => none
  | fuel + 1, dbRows =>
    match dbRows.find? (fun row => row.isActive) with
    | some row => some (row, dbRows, 0)
    | none =>
      (getActiveRankingWeights fuel (dbRows ++ [defaultRankingWeightRow])).map
        (fun r => (r.1, r.2.1, r.2.2 + 1))

lemma find?_append_of_none {α : Type} {p : α → Bool} {l₁ l₂ : List α}
    (h : l₁.find? p = none) : (l₁ ++ l₂).find? p = l₂.find? p := by
  induction l₁ with
  | nil => rfl
  | cons x xs ih =>
    rcases hp : p x with _ | _
    · rw [List.cons_append, List.find?_cons_of_neg _ (by simp [hp])]
      rw [List.find?_cons_of_neg _ (by simp [hp])] at h
      exact ih h
    · rw [List.find?_cons_of_pos _ hp] at h
      exact absurd h (by simp)

/-- C10: when no active ranking-weights row exists at read time (and the
database is reachable), `getActiveRankingWeights` inserts the default row
(0.50, 0.20, 0.15, 0.10, 0.05) as active, the recursive re-read finds it, and
the whole call terminates within recursion depth 2 having inserted exactly one
row, returning the default weights. -/
theorem C10_default_weights (dbRows : List RankingWeightRow)
    (h : dbRows.find? (fun row => row.isActive) = none) :
    getActiveRankingWeights 2 dbRows =
      some (defaultRankingWeightRow, dbRows ++ [defaultRankingWeightRow], 1) ∧
    (defaultRankingWeightRow.alpha, defaultRankingWeightRow.beta,
      defaultRankingWeightRow.gamma, defaultRankingWeightRow.delta,
      defaultRankingWeightRow.epsilon) = (1/2, 1/5, 3/20, 1/10, 1/20) ∧
    defaultRankingWeightRow.isActive = true := by
  refine ⟨?_, rfl, rfl⟩
  have hfind : (dbRows ++ [defaultRankingWeightRow]).find?
      (fun row => row.isActive) = some defaultRankingWeightRow := by
    rw [find?_append_of_none h]
    rfl
  show getActiveRankingWeights (1 + 1) dbRows = _
  rw [getActiveRankingWeights, h]
  show (getActiveRankingWeights (0 + 1) _).map _ = _
  rw [getActiveRankingWeights, hfind]
  rfl

/-- C10 (witness): on the empty table, the defaults are materialized with one
insertion and returned. -/
theorem C10_default_weights_witness :
    (([] : List RankingWeightRow).find? (fun row => row.isActive) = none) ∧
    getActiveRankingWeights 2 [] =
      some (defaultRankingWeightRow, [defaultRankingWeightRow], 1) := by
  refine ⟨rfl, ?_⟩
  have h := (C10_default_weights [] rfl).1
  simpa using h

/-! ## The deterministic embedding provider (semanticSearch.ts), over ℝ

`generateDeterministicEmbedding` runs `Math.sin`, `Math.tanh` and `Math.sqrt`;
its model lives over the real numbers.  `charCodeAt` agrees with the character
codepoint on every string the system handles (the basic multilingual plane). -/

noncomputable section

def EMBEDDING_DIMENSION : ℕ := 384

/-- The pre-normalization vector of `generateDeterministicEmbedding`:
entry `i` is `tanh(0.001 · Σⱼ charCode(tⱼ) · sin((i+1)·(j+1)·0.01))` over the
lowercased text. -/
def rawEmbedding (text : String) : List ℝ :=
  (List.range EMBEDDING_DIMENSION).map (fun (i : ℕ) =>
    Real.tanh (((toLowerStr text).data.enum.foldl
      (fun value jc => value +
        (jc.2.toNat : ℝ) * Real.sin (((i : ℕ) + 1 : ℝ) * ((jc.1 : ℕ) + 1 : ℝ) * 0.01))
      0) * 0.001))

/-- `vector.reduce((sum, val) => sum + val * val, 0)`. -/
def sumOfSquares (v : List ℝ) : ℝ :=
  v.foldl (fun sum val => sum + val * val) 0

def magnitude (v : List ℝ) : ℝ :=
  Real.sqrt (sumOfSquares v)

/-- `normalizeVector`: divide by the L2 magnitude — except that a zero-norm
vector is returned unchanged. -/
def normalizeVector (v : List ℝ) : List ℝ :=
  if magnitude v = 0 then v else v.map (fun val => val / magnitude v)

def generateDeterministicEmbedding (text : String) : List ℝ :=
  normalizeVector (rawEmbedding text)

/-- The specification's reference construction (§4.1), written exactly as the
spec orders the factors: `vᵢ = tanh(0.001·Σⱼ codepoint(tⱼ)·sin(0.01·(i+1)·(j+1)))`
on the lowercased text. -/
def referenceRawEmbedding (text : String) : List ℝ :=
  (List.range EMBEDDING_DIMENSION).map (fun (i : ℕ) =>
    Real.tanh (0.001 * ((toLowerStr text).data.enum.foldl
      (fun s jc => s +
        (jc.2.toNat : ℝ) * Real.sin (0.01 * ((i : ℕ) + 1 : ℝ) * ((jc.1 : ℕ) + 1 : ℝ)))
      0)))

lemma foldl_add_sq (v : List ℝ) :
    ∀ a : ℝ, v.foldl (fun sum val => sum + val * val) a =
      a + (v.map (fun x => x * x)).sum := by
  induction v with
  | nil => simp
  | cons x xs ih =>
    intro a
    rw [List.foldl_cons, ih, List.map_cons, List.sum_cons]
    ring

lemma sumOfSquares_eq (v : List ℝ) :
    sumOfSquares v = (v.map (fun x => x * x)).sum := by
  rw [sumOfSquares, foldl_add_sq]
  ring

lemma sumOfSquares_nonneg (v : List ℝ) : 0 ≤ sumOfSquares v := by
  rw [sumOfSquares_eq]
  apply List.sum_nonneg
  intro x hx
  obtain ⟨y, -, rfl⟩ := List.mem_map.mp hx
  exact mul_self_nonneg y

lemma sumOfSquares_map_div (v : List ℝ) (c : ℝ) :
    sumOfSquares (v.map (fun x => x / c)) = sumOfSquares v / c ^ 2 := by
  rw [sumOfSquares_eq, sumOfSquares_eq, List.map_map]
  have hfun : ((fun x => x * x) ∘ fun x => x / c) =
      fun x : ℝ => (x * x) * (1 / c ^ 2) := by
    funext x
    simp only [Function.comp]
    ring
  rw [hfun, List.sum_map_mul_right]
  ring

lemma magnitude_normalizeVector {v : List ℝ} (h : magnitude v ≠ 0) :
    magnitude (normalizeVector v) = 1 := by
  rw [normalizeVector, if_neg h]
  have hS : 0 < sumOfSquares v := by
    rcases lt_or_eq_of_le (sumOfSquares_nonneg v) with hlt | heq
    · exact hlt
    · exact absurd (by rw [magnitude, ← heq, Real.sqrt_zero]) h
  rw [magnitude, sumOfSquares_map_div, magnitude,
    Real.sq_sqrt (le_of_lt hS), div_self (ne_of_gt hS), Real.sqrt_one]

lemma length_normalizeVector (v : List ℝ) :
    (normalizeVector v).length = v.length := by
  rw [normalizeVector]
  split <;> simp

lemma raw_eq_reference (text : String) :
    rawEmbedding text = referenceRawEmbedding text := by
  rw [rawEmbedding, referenceRawEmbedding]
  refine List.map_congr_left (fun i _ => ?_)
  have hfun : (fun (value : ℝ) (jc : ℕ × Char) => value +
      (jc.2.toNat : ℝ) * Real.sin (((i : ℝ) + 1) * ((jc.1 : ℝ) + 1) * 0.01)) =
      fun value jc => value +
        (jc.2.toNat : ℝ) * Real.sin (0.01 * ((i : ℝ) + 1) * ((jc.1 : ℝ) + 1)) := by
    funext value jc
    have harg : ((i : ℝ) + 1) * ((jc.1 : ℝ) + 1) * 0.01 =
        0.01 * ((i : ℝ) + 1) * ((jc.1 : ℝ) + 1) := by ring
    rw [harg]
  rw [hfun]
  congr 1
  ring

/-- C9 (amended): the deterministic fallback embedding has dimension 384, is
stable (it depends only on the lowercased text, hence the same input always
yields the same output), follows the reference construction
`vᵢ = tanh(0.001·Σⱼ codepoint(tⱼ)·sin(0.01·(i+1)·(j+1)))`, and the returned
vector has L2 norm exactly 1 whenever the pre-normalization vector is nonzero;
a zero raw vector (e.g. for the empty text) is returned unnormalized. -/
theorem C9_embedding_provider :
    (∀ text : String,
      (generateDeterministicEmbedding text).length = EMBEDDING_DIMENSION) ∧
    (∀ t₁ t₂ : String, toLowerStr t₁ = toLowerStr t₂ →
      generateDeterministicEmbedding t₁ = generateDeterministicEmbedding t₂) ∧
    (∀ text : String, rawEmbedding text = referenceRawEmbedding text) ∧
    (∀ text : String, magnitude (rawEmbedding text) = 0 ∨
      magnitude (generateDeterministicEmbedding text) = 1) := by
  refine ⟨?_, ?_, raw_eq_reference, ?_⟩
  · intro text
    rw [generateDeterministicEmbedding, length_normalizeVector, rawEmbedding,
      List.length_map, List.length_range]
  · intro t₁ t₂ h
    rw [generateDeterministicEmbedding, generateDeterministicEmbedding,
      rawEmbedding, rawEmbedding, h]
  · intro text
    by_cases h : magnitude (rawEmbedding text) = 0
    · exact Or.inl h
    · exact Or.inr (magnitude_normalizeVector h)

/-- C9 (witness): stability instantiated — "SmartCart" and "smartcart"
lowercase identically, so they embed identically. -/
theorem C9_embedding_provider_witness :
    toLowerStr "SmartCart" = toLowerStr "smartcart" ∧
    generateDeterministicEmbedding "SmartCart" =
      generateDeterministicEmbedding "smartcart" :=
  ⟨by decide, C9_embedding_provider.2.1 "SmartCart" "smartcart" (by decide)⟩

/-- C9 (counterexample): the empty text's raw vector is all zeros, its
magnitude is 0, and `normalizeVector` returns it unchanged — so the returned
embedding is the zero vector, whose L2 norm is 0, not 1 ± 1e-6. -/
theorem C9_counterexample :
    generateDeterministicEmbedding "" = List.replicate EMBEDDING_DIMENSION (0 : ℝ) ∧
    magnitude (generateDeterministicEmbedding "") = 0 ∧
    ¬ (1 - 1/1000000 ≤ (0 : ℝ)) := by
  have hraw : rawEmbedding "" = List.replicate EMBEDDING_DIMENSION (0 : ℝ) := by
    rw [rawEmbedding]
    have hdata : (toLowerStr "").data = [] := rfl
    simp [hdata, Real.tanh_zero]
  have hmagraw : magnitude (List.replicate EMBEDDING_DIMENSION (0 : ℝ)) = 0 := by
    rw [magnitude, sumOfSquares_eq]
    simp
  have hgde : generateDeterministicEmbedding "" =
      List.replicate EMBEDDING_DIMENSION (0 : ℝ) := by
    rw [generateDeterministicEmbedding, hraw, normalizeVector, if_pos hmagraw]
  refine ⟨hgde, by rw [hgde, hmagraw], by norm_num⟩

end

end SmartCart
